import Mathlib

/-!
Verification development for emberkeyd (`src/main.rs`), a key-registration
server built around a stateless challenge-response proof-of-possession
protocol.  The Rust source is embedded shallowly:

* bytes are `Fin 256`, byte strings are `List (Fin 256)`;
* `bincode` (legacy fixed-int configuration) serialization of
  `State { challenge_nonce: Vec<u8>, pubkey: PublicKey }` is modelled at the
  byte level with 8-byte little-endian length prefixes;
* AES-256-GCM (`aes_gcm::Aes256Gcm`) is modelled as an ideal authenticated
  cipher: encryption is an injective total function of key, nonce and
  plaintext, and decryption succeeds exactly on ciphertexts produced under
  the same key and nonce;
* the `rusqlite` key table (`name TEXT UNIQUE NOT NULL, pubkey BLOB`) is an
  association list threaded through the handlers, with insertion reporting a
  structured `ConstraintViolation` error code when the name is taken;
* randomness (`thread_rng`) is passed in explicitly as byte generators.

Definitions come first, then the supporting lemmas, then one theorem per
specification claim together with its concrete-input witness.
-/

namespace Emberkeyd

/-- Bytes, as in Rust `u8`. -/
abbrev Byte := Fin 256

/-- Byte strings, as in Rust `Vec<u8>` / `&[u8]`. -/
abbrev Bytes := List Byte

/-- Little-endian encoding of `n` into exactly `k` bytes (truncating at
`256 ^ k`), as bincode writes fixed-width unsigned integers. -/
def leBytes : Nat → Nat → Bytes
  | 0, _ => []
  | k + 1, n => (⟨n % 256, Nat.mod_lt _ (by decide)⟩ : Byte) :: leBytes k (n / 256)

/-- Little-endian decoding of a byte string into a natural number. -/
def leNat : Bytes → Nat
  | [] => 0
  | b :: bs => b.val + 256 * leNat bs

/-- The bincode legacy fixed-int encoding of a `u64` value. -/
def u64le (n : Nat) : Bytes := leBytes 8 n

/-- The bincode encoding of a `Vec<u8>`: a `u64` length prefix followed by
the raw bytes. -/
def serBytes (v : Bytes) : Bytes := u64le v.length ++ v

/-- Reading a bincode `u64` from the front of a byte string. -/
def readU64 (bs : Bytes) : Option (Nat × Bytes) :=
  if 8 ≤ bs.length then some (leNat (bs.take 8), bs.drop 8) else none

/-- Reading a bincode `Vec<u8>` from the front of a byte string. -/
def readVec (bs : Bytes) : Option (Bytes × Bytes) :=
  (readU64 bs).bind fun p =>
    if p.1 ≤ p.2.length then some (p.2.take p.1, p.2.drop p.1) else none

/-- Modelled from the spec: the `asym_ratchet::PublicKey` asymmetric key type
is an external primitive whose internals are not part of this repository; the
spec treats it as an opaque public key with a fixed canonical binary
encoding.  It is modelled as its canonical encoding bytes. -/
structure PublicKey where
  bytes : Bytes
deriving DecidableEq, Repr

/-- Rust `struct State { challenge_nonce: Vec<u8>, pubkey: PublicKey }`: the
ephemeral protocol state sealed into the challenge. -/
structure State where
  challenge_nonce : Bytes
  pubkey : PublicKey
deriving DecidableEq, Repr

/-- Rust `struct Request { pubkey: PublicKey }`: the body of
`POST /challenge`. -/
structure Request where
  pubkey : PublicKey
deriving DecidableEq, Repr

/-- Rust `struct Challenge { challenge: Vec<u8>, state: Vec<u8>, nonce: Vec<u8> }`:
the wire object returned by challenge issuance. -/
structure Challenge where
  challenge : Bytes
  state : Bytes
  nonce : Bytes
deriving DecidableEq, Repr

/-- Rust `struct Response { response: Vec<u8>, state: Vec<u8>, nonce: Vec<u8>, name: String }`:
the body of `POST /response`. -/
structure Response where
  response : Bytes
  state : Bytes
  nonce : Bytes
  name : String
deriving DecidableEq, Repr

/-- The bincode serialization of the public key alone, as in
`bincode::serialize(&pubkey)` (the stored `keybytes`). -/
def serializePubkey (pk : PublicKey) : Bytes := serBytes pk.bytes

/-- The bincode serialization of a `State`, as in `bincode::serialize(&state)`:
the `Vec<u8>` field then the `PublicKey` field, each length-prefixed. -/
def serializeState (s : State) : Bytes :=
  serBytes s.challenge_nonce ++ serBytes s.pubkey.bytes

/-- The bincode deserialization of a `State`, as in
`bincode::deserialize::<State>(&plaintext)`: reads the two length-prefixed
fields and fails (returns `none`) when the bytes do not parse. -/
def deserializeState (bs : Bytes) : Option State :=
  (readVec bs).bind fun p1 =>
    (readVec p1.2).map fun p2 => ⟨p1.1, ⟨p2.1⟩⟩

/-- The server's AES-256-GCM key (`type AesKey = Key<Aes256Gcm>`), generated
once at startup. -/
structure AesKey where
  bytes : Bytes
deriving DecidableEq, Repr

/-- Authentication tag material of the ideal AEAD: an injective encoding of
the key and the nonce, prepended to the plaintext by encryption and checked
by decryption.  This models AES-256-GCM's guarantee that a ciphertext
authenticates only under the key and nonce it was produced with. -/
def aeadTag (k : AesKey) (n : Bytes) : Bytes := serBytes k.bytes ++ serBytes n

/-- Ideal model of `cipher.encrypt(&nonce, plaintext)` for `Aes256Gcm`:
total and injective in the plaintext for fixed key and nonce. -/
def aeadEncrypt (k : AesKey) (n : Bytes) (m : Bytes) : Bytes := aeadTag k n ++ m

/-- Ideal model of `cipher.decrypt(&nonce, ciphertext)` for `Aes256Gcm`:
fails closed (returns `none`) unless the ciphertext was produced under the
same key and nonce, in which case it returns the original plaintext. -/
def aeadDecrypt (k : AesKey) (n : Bytes) (c : Bytes) : Option Bytes :=
  if c.take (aeadTag k n).length = aeadTag k n then
    some (c.drop (aeadTag k n).length)
  else none

/-- Deterministic byte stream drawn from a generator, modelling the bytes
consumed from `thread_rng()`. -/
def rngBytes (g : Nat → Byte) (n : Nat) : Bytes := (List.range n).map g

/-- Modelled from the spec: `asym_ratchet::PublicKey::encrypt` followed by
`bincode::serialize` of the resulting ciphertext — a randomized,
semantically-secure public-key encryption of the challenge nonce under the
claimed key, serialized to wire bytes.  The primitive lives in an external
crate; per the spec it is total on any public key and message, so it is
modelled as an injective total encoding of key, randomness and message. -/
def asymEncryptSer (pk : PublicKey) (rand : Bytes) (m : Bytes) : Bytes :=
  serBytes pk.bytes ++ serBytes rand ++ serBytes m

/-- Rust `Challenge::new_challenge(my_key, pubkey)`.  The three generators
supply the randomness the Rust code draws from `thread_rng()`: `g1` the
32-byte `challenge_nonce`, `g2` the 12-byte AEAD nonce from
`Aes256Gcm::generate_nonce`, `g3` the randomness of the asymmetric
encryption.  Every step is total: bincode serialization of a well-formed
`State` and AEAD/asymmetric encryption never fail (the `.unwrap()` calls in
the source never observe an error in the model). -/
def Challenge.new_challenge (my_key : AesKey) (pubkey : PublicKey)
    (g1 g2 g3 : Nat → Byte) : Challenge :=
  let challenge_nonce : Bytes := rngBytes g1 32
  let nonce : Bytes := rngBytes g2 12
  let state : State := ⟨challenge_nonce, pubkey⟩
  let stateSer : Bytes := serializeState state
  let stateCt : Bytes := aeadEncrypt my_key nonce stateSer
  { challenge := asymEncryptSer pubkey (rngBytes g3 32) challenge_nonce
    state := stateCt
    nonce := nonce }

/-- Rust `Response::verify`, abstracted over the AEAD decryption function
(the `cipher` object): the nonce must convert to a 12-byte `AesNonce`
(`try_into().ok()?`), the state ciphertext must decrypt (`decrypt(..).ok()?`),
the plaintext must deserialize (`bincode::deserialize(..).ok()?`), and the
revealed `response` bytes must equal the sealed `challenge_nonce`; every
failure is `none`. -/
def verifyWith (dec : AesKey → Bytes → Bytes → Option Bytes)
    (self : Response) (my_key : AesKey) : Option PublicKey :=
  if self.nonce.length = 12 then
    match (dec my_key self.nonce self.state).bind deserializeState with
    | some state =>
        if self.response = state.challenge_nonce then some state.pubkey else none
    | none => none
  else none

/-- Rust `Response::verify(&self, my_key)` with the ideal AES-256-GCM
cipher. -/
def Response.verify (self : Response) (my_key : AesKey) : Option PublicKey :=
  verifyWith aeadDecrypt self my_key

/-- The directory store: the rows of the SQLite `keys` table
(`name TEXT UNIQUE NOT NULL, pubkey BLOB`), in insertion order. -/
abbrev Db := List (String × Bytes)

/-- Structured SQLite error codes (`rusqlite::ErrorCode`), abstracted to the
one code the handler distinguishes versus everything else. -/
inductive SqliteErrorCode
  | constraintViolation
  | otherError
deriving DecidableEq, Repr

/-- A store error, as `rusqlite::Error` is observed by the handler: a
structured error code (`e.sqlite_error_code()`, possibly absent) and a
human-readable message (used only for logging). -/
structure SqliteError where
  code : Option SqliteErrorCode
  message : String
deriving DecidableEq, Repr

/-- The `INSERT INTO keys (name, pubkey) VALUES (?1, ?2)` statement against
the table with `name TEXT UNIQUE NOT NULL`: appends a row, or reports a
structured constraint-violation error when the name is already present. -/
def sqliteInsert (db : Db) (name : String) (pubkey : Bytes) :
    Except SqliteError Db :=
  if db.any (fun e => e.1 == name) then
    .error ⟨some .constraintViolation, "UNIQUE constraint failed: keys.name"⟩
  else
    .ok (db ++ [(name, pubkey)])

/-- HTTP replies the handlers produce: `201 Created`, `409 Conflict`,
`500 Internal Server Error`, `400 Bad Request`, `200` with a pubkey body, and
`404 Not Found`, each failure carrying its JSON `error` string. -/
inductive Reply
  | created
  | conflict (error : String)
  | internalError (error : String)
  | badRequest (error : String)
  | found (pubkey : Bytes)
  | notFound (error : String)
deriving DecidableEq, Repr

/-- The `match res` at the end of the `post_response` handler: a successful
insert is `201 Created`; an error whose structured code is
`ErrorCode::ConstraintViolation` is `409 {"error": "name taken"}` and leaves
the store as it was; any other error is `500 {"error": "could not insert"}`
(the error itself is only logged) and leaves the store as it was. -/
def handleInsertResult (db : Db) (res : Except SqliteError Db) : Db × Reply :=
  match res with
  | .ok db' => (db', .created)
  | .error e =>
      if e.code = some .constraintViolation then (db, .conflict "name taken")
      else (db, .internalError "could not insert")

/-- The `POST /challenge` handler: issues a fresh challenge for the claimed
public key in the request body. -/
def post_challenge (my_key : AesKey) (req : Request) (g1 g2 g3 : Nat → Byte) :
    Challenge :=
  Challenge.new_challenge my_key req.pubkey g1 g2 g3

/-- The `POST /response` handler, abstracted over the store's insert
operation (the shared `db` connection): verifies the response, and on success
inserts `(name, bincode::serialize(&pubkey))` and classifies the outcome; on
a failed proof it replies `400 {"error": "failed challenge"}` without
touching the store. -/
def post_responseWith (ins : Db → String → Bytes → Except SqliteError Db)
    (my_key : AesKey) (db : Db) (r : Response) : Db × Reply :=
  match r.verify my_key with
  | some pubkey => handleInsertResult db (ins db r.name (serializePubkey pubkey))
  | none => (db, .badRequest "failed challenge")

/-- The `POST /response` handler with the SQLite insert. -/
def post_response (my_key : AesKey) (db : Db) (r : Response) : Db × Reply :=
  post_responseWith sqliteInsert my_key db r

/-- The `GET /key/{name}` handler: `SELECT pubkey FROM keys WHERE name = ?1`
returns the first matching row's pubkey as `200 {"pubkey": bytes}`; a query
error (a lookup miss) is `404 {"error": "not found"}`. -/
def get_key (db : Db) (name : String) : Reply :=
  match db.find? (fun e => e.1 == name) with
  | some e => .found e.2
  | none => .notFound "not found"

/-- A fixed all-zero randomness generator for concrete test inputs. -/
def gZero : Nat → Byte := fun _ => 0

/-- A concrete server key for concrete test inputs. -/
def mkTest : AesKey := ⟨List.replicate 32 0⟩

/-- A concrete client public key for concrete test inputs. -/
def pkTest : PublicKey := ⟨[1, 2, 3]⟩

/-- The challenge issued to `pkTest` under `mkTest` with zero randomness. -/
def chTest : Challenge := Challenge.new_challenge mkTest pkTest gZero gZero gZero

/-- The honest response to `chTest`: the revealed nonce (which the true key
holder recovers), the echoed sealed state and AEAD nonce, and a chosen
name. -/
def rTest : Response := ⟨rngBytes gZero 32, chTest.state, chTest.nonce, "alice"⟩

/-- A dishonest response to `chTest`: wrong revealed bytes, so verification
must fail. -/
def rBadTest : Response := ⟨[0], chTest.state, chTest.nonce, "alice"⟩

/-- A store that already holds an entry for `"alice"`. -/
def dbTest : Db := [("alice", serializePubkey pkTest)]

/-! Supporting lemmas about the byte-level codec and the ideal cipher. -/

theorem leBytes_length (k n : Nat) : (leBytes k n).length = k := by
  induction k generalizing n with
  | zero => rfl
  | succ k ih => simp [leBytes, ih]

theorem leNat_leBytes (k n : Nat) (h : n < 256 ^ k) : leNat (leBytes k n) = n := by
  induction k generalizing n with
  | zero =>
    simp only [pow_zero, Nat.lt_one_iff] at h
    simp [h, leBytes, leNat]
  | succ k ih =>
    have hdiv : n / 256 < 256 ^ k := by
      rw [Nat.div_lt_iff_lt_mul (by norm_num)]
      calc n < 256 ^ (k + 1) := h
        _ = 256 ^ k * 256 := by ring
    simp only [leBytes, leNat, ih _ hdiv]
    omega

theorem readU64_u64le (n : Nat) (rest : Bytes) (h : n < 256 ^ 8) :
    readU64 (u64le n ++ rest) = some (n, rest) := by
  have hlen : (u64le n).length = 8 := leBytes_length 8 n
  have h8 : 8 ≤ (u64le n ++ rest).length := by
    simp [List.length_append, hlen]
  have htake : (u64le n ++ rest).take 8 = u64le n := by
    rw [← hlen]; exact List.take_left _ _
  have hdrop : (u64le n ++ rest).drop 8 = rest := by
    rw [← hlen]; exact List.drop_left _ _
  rw [readU64, if_pos h8, htake, hdrop, show leNat (u64le n) = n from leNat_leBytes 8 n h]

theorem readVec_serBytes (v : Bytes) (rest : Bytes) (h : v.length < 256 ^ 8) :
    readVec (serBytes v ++ rest) = some (v, rest) := by
  have h1 : serBytes v ++ rest = u64le v.length ++ (v ++ rest) := by
    simp [serBytes, List.append_assoc]
  have hle : v.length ≤ (v ++ rest).length := by
    simp [List.length_append]
  have htake : (v ++ rest).take v.length = v := List.take_left _ _
  have hdrop : (v ++ rest).drop v.length = rest := List.drop_left _ _
  simp [readVec, h1, readU64_u64le _ _ h, hle, htake, hdrop]

theorem deserializeState_serializeState (s : State)
    (h1 : s.challenge_nonce.length < 256 ^ 8)
    (h2 : s.pubkey.bytes.length < 256 ^ 8) :
    deserializeState (serializeState s) = some s := by
  have e1 : readVec (serBytes s.challenge_nonce ++ serBytes s.pubkey.bytes) =
      some (s.challenge_nonce, serBytes s.pubkey.bytes) := readVec_serBytes _ _ h1
  have e2 : readVec (serBytes s.pubkey.bytes) = some (s.pubkey.bytes, []) := by
    simpa using readVec_serBytes s.pubkey.bytes [] h2
  simp [deserializeState, serializeState, e1, e2]

theorem aeadDecrypt_aeadEncrypt (k : AesKey) (n m : Bytes) :
    aeadDecrypt k n (aeadEncrypt k n m) = some m := by
  simp [aeadDecrypt, aeadEncrypt, List.take_left, List.drop_left]

theorem aeadDecrypt_some (k : AesKey) (n c m : Bytes)
    (h : aeadDecrypt k n c = some m) : c = aeadEncrypt k n m := by
  simp only [aeadDecrypt] at h
  split at h
  · rename_i htag
    simp only [Option.some.injEq] at h
    subst h
    rw [aeadEncrypt]
    conv_lhs => rw [← List.take_append_drop (aeadTag k n).length c]
    rw [htag]
  · exact absurd h (by simp)

theorem rngBytes_length (g : Nat → Byte) (n : Nat) : (rngBytes g n).length = n := by
  simp [rngBytes]

theorem verifyWith_eq_some (dec : AesKey → Bytes → Bytes → Option Bytes)
    (r : Response) (mk : AesKey) (pk : PublicKey) :
    verifyWith dec r mk = some pk ↔
      r.nonce.length = 12 ∧
      ∃ st : State, (dec mk r.nonce r.state).bind deserializeState = some st ∧
        r.response = st.challenge_nonce ∧ pk = st.pubkey := by
  constructor
  · intro h
    simp only [verifyWith] at h
    split at h
    · rename_i hlen
      refine ⟨hlen, ?_⟩
      split at h
      · rename_i st hst
        split at h
        · rename_i hresp
          exact ⟨st, hst, hresp, (Option.some.injEq _ _).mp h.symm⟩
        · exact absurd h (by simp)
      · exact absurd h (by simp)
    · exact absurd h (by simp)
  · rintro ⟨hlen, st, hst, hresp, hpk⟩
    simp [verifyWith, hlen, hst, hresp, hpk]

theorem verify_some_from_sealed (mk : AesKey) (r : Response) (pk : PublicKey)
    (h : r.verify mk = some pk) :
    ∃ st : State, (aeadDecrypt mk r.nonce r.state).bind deserializeState = some st ∧
      pk = st.pubkey := by
  rcases (verifyWith_eq_some aeadDecrypt r mk pk).mp h with ⟨-, st, hst, -, hpk⟩
  exact ⟨st, hst, hpk⟩

/-! The claim theorems. -/

/-- C1: when verification succeeds, the returned public key is the `pubkey`
field of the `State` decrypted from `response.state` (never a key from an
unauthenticated field of the `Response`); consequently, for a challenge
issued for key `A`, any response (whatever its `name`) that verifies yields
exactly `A`. -/
theorem verify_returns_sealed_key_binding :
    (∀ (my_key : AesKey) (r : Response) (pk : PublicKey),
        r.verify my_key = some pk →
        ∃ st : State,
          (aeadDecrypt my_key r.nonce r.state).bind deserializeState = some st ∧
          pk = st.pubkey)
    ∧ (∀ (my_key : AesKey) (A : PublicKey) (g1 g2 g3 : Nat → Byte)
          (r : Response) (pk : PublicKey),
        A.bytes.length < 256 ^ 8 →
        r.state = (Challenge.new_challenge my_key A g1 g2 g3).state →
        r.nonce = (Challenge.new_challenge my_key A g1 g2 g3).nonce →
        r.verify my_key = some pk → pk = A) := by
  refine ⟨verify_some_from_sealed, ?_⟩
  intro mk A g1 g2 g3 r pk hA hstate hnonce h
  rcases verify_some_from_sealed mk r pk h with ⟨st, hst, hpk⟩
  rw [hstate, hnonce] at hst
  have hch : (Challenge.new_challenge mk A g1 g2 g3).state =
      aeadEncrypt mk (rngBytes g2 12) (serializeState ⟨rngBytes g1 32, A⟩) := rfl
  have hchn : (Challenge.new_challenge mk A g1 g2 g3).nonce = rngBytes g2 12 := rfl
  have hde : deserializeState (serializeState ⟨rngBytes g1 32, A⟩) =
      some ⟨rngBytes g1 32, A⟩ :=
    deserializeState_serializeState _ (by rw [rngBytes_length]; norm_num) hA
  rw [hch, hchn, aeadDecrypt_aeadEncrypt, Option.some_bind, hde] at hst
  cases hst
  rw [hpk]

/-- Witness for C1 at the concrete honest response: the verified key is the
one sealed by issuance, and it equals the key the challenge was issued
for. -/
theorem verify_returns_sealed_key_binding_witness :
    (∃ st : State,
        (aeadDecrypt mkTest rTest.nonce rTest.state).bind deserializeState = some st ∧
        pkTest = st.pubkey)
    ∧ pkTest = pkTest :=
  ⟨verify_returns_sealed_key_binding.1 mkTest rTest pkTest (by decide),
   verify_returns_sealed_key_binding.2 mkTest pkTest gZero gZero gZero rTest pkTest
     (by decide) rfl rfl (by decide)⟩

/-- C2: `verify` returns `some pk` exactly when the nonce has the right
length, AEAD decryption of the state authenticates, the plaintext
deserializes into a `State`, and the revealed bytes equal that state's
`challenge_nonce`; every failure case is the single outcome `none`. -/
theorem verify_some_iff_checks (my_key : AesKey) (r : Response) (pk : PublicKey) :
    r.verify my_key = some pk ↔
      r.nonce.length = 12 ∧
      ∃ pt : Bytes, aeadDecrypt my_key r.nonce r.state = some pt ∧
      ∃ st : State, deserializeState pt = some st ∧
        r.response = st.challenge_nonce ∧ pk = st.pubkey := by
  rw [Response.verify, verifyWith_eq_some]
  constructor
  · rintro ⟨hlen, st, hst, hresp, hpk⟩
    rcases Option.bind_eq_some.mp hst with ⟨pt, hpt, hde⟩
    exact ⟨hlen, pt, hpt, st, hde, hresp, hpk⟩
  · rintro ⟨hlen, pt, hpt, st, hde, hresp, hpk⟩
    exact ⟨hlen, st, by rw [hpt, Option.some_bind, hde], hresp, hpk⟩

/-- Witness for C2 at the concrete honest response. -/
theorem verify_some_iff_checks_witness :
    rTest.verify mkTest = some pkTest ↔
      rTest.nonce.length = 12 ∧
      ∃ pt : Bytes, aeadDecrypt mkTest rTest.nonce rTest.state = some pt ∧
      ∃ st : State, deserializeState pt = some st ∧
        rTest.response = st.challenge_nonce ∧ pkTest = st.pubkey :=
  verify_some_iff_checks mkTest rTest pkTest

/-- C3: `verify` is total on adversarial input: for every server key and
every `Response` value it returns `none` or `some pk`; no input reaches a
crashing path (every fallible step is an `Option` in the embedding). -/
theorem verify_total_on_adversarial_input (my_key : AesKey) (r : Response) :
    r.verify my_key = none ∨ ∃ pk : PublicKey, r.verify my_key = some pk := by
  cases h : r.verify my_key with
  | none => exact Or.inl rfl
  | some pk => exact Or.inr ⟨pk, rfl⟩

/-- C4: seal/open round-trip: serializing a well-formed `State` and
AEAD-encrypting it under a nonce, as `new_challenge` does, then
AEAD-decrypting and deserializing with that nonce, as `verify` does, yields
the original state. -/
theorem seal_open_roundtrip (my_key : AesKey) (n : Bytes) (x : State)
    (h1 : x.challenge_nonce.length < 256 ^ 8)
    (h2 : x.pubkey.bytes.length < 256 ^ 8) :
    (aeadDecrypt my_key n (aeadEncrypt my_key n (serializeState x))).bind
      deserializeState = some x := by
  rw [aeadDecrypt_aeadEncrypt, Option.some_bind,
    deserializeState_serializeState x h1 h2]

/-- Witness for C4: the concrete challenge's sealed state opens back to the
state it was built from. -/
theorem seal_open_roundtrip_witness :
    (aeadDecrypt mkTest (rngBytes gZero 12)
        (aeadEncrypt mkTest (rngBytes gZero 12)
          (serializeState ⟨rngBytes gZero 32, pkTest⟩))).bind
      deserializeState = some ⟨rngBytes gZero 32, pkTest⟩ :=
  seal_open_roundtrip mkTest (rngBytes gZero 12) ⟨rngBytes gZero 32, pkTest⟩
    (by decide) (by decide)

/-- C5: sequential uniqueness with atomic failure: if the store already has
exactly one entry for `r.name` (with key bytes `k`) and a second, validly
proved registration for that name arrives, the handler replies
`Conflict("name taken")` and the store is returned unchanged — still exactly
one entry for the name, still with key `k`. -/
theorem duplicate_registration_conflict (my_key : AesKey) (db : Db)
    (r : Response) (pk : PublicKey) (k : Bytes)
    (hver : r.verify my_key = some pk)
    (hmem : (r.name, k) ∈ db)
    (huniq : db.countP (fun e => e.1 == r.name) = 1) :
    post_response my_key db r = (db, .conflict "name taken") ∧
    ((post_response my_key db r).1.countP (fun e => e.1 == r.name) = 1 ∧
      (r.name, k) ∈ (post_response my_key db r).1) := by
  have hany : db.any (fun e => e.1 == r.name) = true :=
    List.any_eq_true.mpr ⟨(r.name, k), hmem, by simp⟩
  have hmain : post_response my_key db r = (db, .conflict "name taken") := by
    simp [post_response, post_responseWith, hver, sqliteInsert, hany,
      handleInsertResult]
  exact ⟨hmain, by rw [hmain]; exact huniq, by rw [hmain]; exact hmem⟩

/-- Witness for C5: re-registering `"alice"` with a fresh valid proof against
a store that already holds `"alice"` yields the conflict reply and the
untouched store. -/
theorem duplicate_registration_conflict_witness :
    post_response mkTest dbTest rTest = (dbTest, Reply.conflict "name taken") ∧
    ((post_response mkTest dbTest rTest).1.countP
        (fun e => e.1 == rTest.name) = 1 ∧
      (rTest.name, serializePubkey pkTest) ∈ (post_response mkTest dbTest rTest).1) :=
  duplicate_registration_conflict mkTest dbTest rTest pkTest
    (serializePubkey pkTest) (by decide) (by decide) (by decide)

/-- C6: the registration handler classifies the store outcome by the store's
structured error code: success is `Created`; an error whose code is the
constraint violation is `Conflict("name taken")`; any other error is
`InternalError` with the fixed message `"could not insert"`; and the
classification never depends on the error's message text. -/
theorem insert_outcome_classification :
    (∀ (db db' : Db), handleInsertResult db (.ok db') = (db', .created))
    ∧ (∀ (db : Db) (e : SqliteError), e.code = some .constraintViolation →
        handleInsertResult db (.error e) = (db, .conflict "name taken"))
    ∧ (∀ (db : Db) (e : SqliteError), e.code ≠ some .constraintViolation →
        handleInsertResult db (.error e) = (db, .internalError "could not insert"))
    ∧ (∀ (db : Db) (e e' : SqliteError), e.code = e'.code →
        handleInsertResult db (.error e) = handleInsertResult db (.error e')) := by
  refine ⟨fun db db' => rfl, fun db e h => ?_, fun db e h => ?_,
    fun db e e' h => ?_⟩
  · simp [handleInsertResult, h]
  · simp [handleInsertResult, h]
  · simp [handleInsertResult, h]

/-- Witness for C6: a constraint-violation error maps to the conflict reply
and a codeless error maps to the internal-error reply, at a concrete
store. -/
theorem insert_outcome_classification_witness :
    handleInsertResult dbTest
        (.error ⟨some .constraintViolation, "UNIQUE constraint failed: keys.name"⟩) =
      (dbTest, .conflict "name taken") ∧
    handleInsertResult dbTest (.error ⟨none, "disk error"⟩) =
      (dbTest, .internalError "could not insert") :=
  ⟨insert_outcome_classification.2.1 dbTest _ rfl,
   insert_outcome_classification.2.2.1 dbTest _ (by decide)⟩

/-- C7: frame property of failed verification: whenever `verify` returns
`none`, the handler replies `BadRequest("failed challenge")` and the store is
untouched — for ANY insert operation, which shows no insert is even
attempted. -/
theorem failed_verify_no_store_access
    (ins : Db → String → Bytes → Except SqliteError Db)
    (my_key : AesKey) (db : Db) (r : Response)
    (h : r.verify my_key = none) :
    post_responseWith ins my_key db r = (db, .badRequest "failed challenge") := by
  simp [post_responseWith, h]

/-- Witness for C7: the concrete dishonest response leaves the concrete store
unchanged and draws the bad-request reply. -/
theorem failed_verify_no_store_access_witness :
    post_responseWith sqliteInsert mkTest dbTest rBadTest =
      (dbTest, Reply.badRequest "failed challenge") :=
  failed_verify_no_store_access sqliteInsert mkTest dbTest rBadTest (by decide)

/-- C8: challenge issuance is total on client-supplied input: for every
claimed public key (and whatever randomness is drawn) the handler returns the
challenge built by the total serialization, AEAD-encryption and asymmetric
encryption steps — no abort path exists. -/
theorem new_challenge_total (my_key : AesKey) (pubkey : PublicKey)
    (g1 g2 g3 : Nat → Byte) :
    post_challenge my_key ⟨pubkey⟩ g1 g2 g3 =
      { challenge := asymEncryptSer pubkey (rngBytes g3 32) (rngBytes g1 32)
        state := aeadEncrypt my_key (rngBytes g2 12)
          (serializeState ⟨rngBytes g1 32, pubkey⟩)
        nonce := rngBytes g2 12 } := rfl

/-- C9: lookup contract: `GET /key/{name}` replies with the stored key bytes
exactly when an entry for the name exists, and with `404 "not found"` exactly
when none does. -/
theorem get_key_contract (db : Db) (name : String) :
    (get_key db name = .notFound "not found" ↔ ∀ e ∈ db, e.1 ≠ name)
    ∧ (∀ bs : Bytes, get_key db name = .found bs → (name, bs) ∈ db)
    ∧ ((∃ e ∈ db, e.1 = name) → ∃ bs : Bytes, get_key db name = .found bs) := by
  refine ⟨⟨?_, ?_⟩, ?_, ?_⟩
  · intro h
    cases hf : db.find? (fun e => e.1 == name) with
    | none =>
      intro e he
      simpa using List.find?_eq_none.mp hf e he
    | some e =>
      rw [get_key, hf] at h
      exact absurd h (by simp)
  · intro h
    rw [get_key]
    cases hf : db.find? (fun e => e.1 == name) with
    | none => rfl
    | some e =>
      have h1 : e.1 = name := by simpa using List.find?_some hf
      exact absurd h1 (h e (List.mem_of_find?_eq_some hf))
  · intro bs h
    rw [get_key] at h
    cases hf : db.find? (fun e => e.1 == name) with
    | none =>
      rw [hf] at h
      exact absurd h (by simp)
    | some e =>
      rw [hf] at h
      have h1 : e.1 = name := by simpa using List.find?_some hf
      have h2 : e.2 = bs := by simpa using h
      have he : e = (name, bs) := Prod.ext h1 h2
      rw [← he]
      exact List.mem_of_find?_eq_some hf
  · rintro ⟨e, he, hname⟩
    have hs : (db.find? (fun x => x.1 == name)).isSome := by
      rw [List.find?_isSome]
      exact ⟨e, he, by simp [hname]⟩
    cases hf : db.find? (fun x => x.1 == name) with
    | none => rw [hf] at hs; simp at hs
    | some e' => exact ⟨e'.2, by rw [get_key, hf]⟩

/-- Witness for C9: on the concrete store, `"alice"` is found and `"bob"` is
not. -/
theorem get_key_contract_witness :
    (∃ bs : Bytes, get_key dbTest "alice" = Reply.found bs) ∧
    get_key dbTest "bob" = Reply.notFound "not found" :=
  ⟨(get_key_contract dbTest "alice").2.2
      ⟨("alice", serializePubkey pkTest), by decide, rfl⟩,
   (get_key_contract dbTest "bob").1.mpr (by decide)⟩

/-- C10: the implicit AEAD-nonce length contract: every issued challenge
carries a 12-byte AEAD nonce, and `verify` rejects (with `none`) every
response whose nonce is not exactly 12 bytes, whatever the decryption
function would have said — the length check happens before any
decryption. -/
theorem aead_nonce_length_contract :
    (∀ (my_key : AesKey) (pubkey : PublicKey) (g1 g2 g3 : Nat → Byte),
        (Challenge.new_challenge my_key pubkey g1 g2 g3).nonce.length = 12)
    ∧ (∀ (dec : AesKey → Bytes → Bytes → Option Bytes) (r : Response)
          (my_key : AesKey),
        r.nonce.length ≠ 12 → verifyWith dec r my_key = none) := by
  constructor
  · intro mk pk g1 g2 g3
    exact rngBytes_length g2 12
  · intro dec r mk h
    simp [verifyWith, h]

/-- Witness for C10: the concrete challenge's nonce has length 12, and a
concrete response with a 2-byte nonce is rejected. -/
theorem aead_nonce_length_contract_witness :
    (Challenge.new_challenge mkTest pkTest gZero gZero gZero).nonce.length = 12 ∧
    verifyWith aeadDecrypt ⟨rngBytes gZero 32, chTest.state, [0, 0], "alice"⟩
      mkTest = none :=
  ⟨aead_nonce_length_contract.1 mkTest pkTest gZero gZero gZero,
   aead_nonce_length_contract.2 aeadDecrypt
     ⟨rngBytes gZero 32, chTest.state, [0, 0], "alice"⟩ mkTest (by decide)⟩

end Emberkeyd
